import Mathlib

/-!
Verification of the EcoWaste-AI waste classifier
(`src/components/Scan_or_Upload/Part2.tsx`).

The shallow embedding below translates, from the TypeScript source:
  * the string helpers the classifier relies on (`String.prototype.toLowerCase`,
    `trim`, `includes`), modelled over ASCII characters;
  * the static configuration tables `KEYWORD_SCORES` and `WASTE_MAP`;
  * the core pure classifier `getWasteDetails`;
  * the retry wrapper `retryFetch`, as a deterministic function of the stream of
    fetch outcomes it would observe;
  * the history update performed in `runInference` (prepend then `slice(0, 5)`)
    and the `setHistory([])` clear operation.

Model scores (JavaScript numbers) are embedded as rationals `ℚ`, so `+` and `>`
are exact; all definitions are computable so concrete runs evaluate by `decide`.
-/

unseal Rat.add Rat.mul Rat.inv Rat.sub

set_option maxRecDepth 4000

/-- ASCII model of the per-character case mapping used by
JavaScript `String.prototype.toLowerCase`. -/
def toLowerChar (c : Char) : Char :=
  if 65 ≤ c.toNat ∧ c.toNat ≤ 90 then Char.ofNat (c.toNat + 32) else c

/-- Model of JavaScript `s.toLowerCase()` (labels in this app are ASCII). -/
def jsToLower (s : String) : String :=
  String.mk (s.data.map toLowerChar)

/-- Whitespace recognised by the model of JavaScript `trim`. -/
def isJsWhitespace (c : Char) : Bool :=
  c == ' ' || c == '\t' || c == '\n' || c == '\r'

/-- Model of JavaScript `s.trim()`: strip whitespace at both ends. -/
def jsTrim (s : String) : String :=
  String.mk (((s.data.dropWhile isJsWhitespace).reverse.dropWhile isJsWhitespace).reverse)

/-- Occurrence of `sub` as a contiguous run inside `l`
(true when `sub` is empty, as in JavaScript). -/
def charsContain : List Char → List Char → Bool
  | _, [] => true
  | [], _ :: _ => false
  | c :: rest, d :: sub' => List.isPrefixOf (d :: sub') (c :: rest) || charsContain rest (d :: sub')

/-- Model of JavaScript `s.includes(sub)`: substring containment. -/
def jsIncludes (s sub : String) : Bool :=
  charsContain s.data sub.data

/-- One raw prediction returned by the Hugging Face model
(interface `HFPrediction` in the source); `score` is embedded as `ℚ`. -/
structure HFPrediction where
  label : String
  score : ℚ
deriving DecidableEq, Repr

/-- Internal waste mapping structure (interface `WasteDetail` in the source).
The optional TypeScript fields `special?` and `compostable?` are `Option Bool`. -/
structure WasteDetail where
  type : String
  recyclable : Bool
  note : String
  special : Option Bool := none
  compostable : Option Bool := none
deriving DecidableEq, Repr

/-- Final classification result (interface `ClassificationResult`):
a `WasteDetail` plus the raw top label. -/
structure ClassificationResult extends WasteDetail where
  rawLabel : String
deriving DecidableEq, Repr

/-- A stored history item (interface `HistoryItem`):
a classification result plus the image data URL and a timestamp. -/
structure HistoryItem extends ClassificationResult where
  imageSrc : String
  timestamp : ℕ
deriving DecidableEq, Repr

/-- The closed category set (union type `WasteCategoryKey` in the source). -/
inductive WasteCategoryKey where
  | PlasticFilm
  | Metal
  | RigidPlastic
  | Paper
  | Glass
  | Cardboard
  | FoodOrganics
deriving DecidableEq, Repr, Fintype

/-- The keyword table `KEYWORD_SCORES`, copied from the source. -/
def KEYWORD_SCORES : WasteCategoryKey → List String
  | .PlasticFilm => ["plastic bag", "film", "wrapping", "wrap", "grocery bag", "carrier bag",
      "plastic sheet", "polyethylene", "shopping bag", "clear plastic"]
  | .Metal => ["metal", "steel", "aluminum", "aluminium", "tin", "can", "foil", "beverage can",
      "utensil", "cutlery", "silverware", "cookware"]
  | .RigidPlastic => ["bottle", "container", "jug", "rigid plastic", "tub", "pet bottle",
      "plastic bottle"]
  | .Paper => ["paper", "book", "magazine", "newspaper", "flyer", "printed paper", "notebook"]
  | .Glass => ["glass", "jar", "shattered", "cup", "tumbler", "cut glass", "bottle", "window"]
  | .Cardboard => ["box", "cardboard", "carton", "packaging", "paperboard", "corrugated"]
  | .FoodOrganics => ["banana", "apple", "orange", "pizza slice", "leaf", "log", "food", "fruit",
      "vegetable", "compost", "peel"]

/-- `WASTE_MAP['rigid_plastic_default']`. -/
def rigid_plastic_default : WasteDetail :=
  { type := "Plastic (Rigid)", recyclable := true,
    note := "Empty, rinse, and replace the cap. This is rigid plastic." }

/-- `WASTE_MAP['metal_default']`. -/
def metal_default : WasteDetail :=
  { type := "Metal", recyclable := true, note := "Rinse well and flatten if possible." }

/-- `WASTE_MAP['glass_default']`. -/
def glass_default : WasteDetail :=
  { type := "Glass", recyclable := true,
    note := "Empty and rinse well. **Intact** glass containers are recyclable." }

/-- `WASTE_MAP['cardboard_default']`. -/
def cardboard_default : WasteDetail :=
  { type := "Cardboard", recyclable := true,
    note := "Must be flattened and dry. Remove all tape." }

/-- `WASTE_MAP['paper_default']`. -/
def paper_default : WasteDetail :=
  { type := "Paper", recyclable := true,
    note := "Recyclable. Books, newspapers, and office paper should be clean and dry." }

/-- `WASTE_MAP['plastic_film_trash']`. -/
def plastic_film_trash : WasteDetail :=
  { type := "Miscellaneous Trash", recyclable := false,
    note := "Plastic film/bags are NOT curbside recyclable. Use store drop-off or trash." }

/-- `WASTE_MAP['broken_glass_special']`. -/
def broken_glass_special : WasteDetail :=
  { type := "Miscellaneous Trash", recyclable := false, special := some true,
    note := "DANGER: Broken or shattered glass is NOT recyclable curbside due to safety. **Throw it in the trash** only after safely wrapping the pieces in thick newspaper or a small box." }

/-- `WASTE_MAP['organic_compost']`. -/
def organic_compost : WasteDetail :=
  { type := "Food Organics", recyclable := false, compostable := some true,
    note := "Compostable/Green Bin waste." }

/-- `WASTE_MAP['UNKNOWN_FALLBACK']`. -/
def UNKNOWN_FALLBACK : WasteDetail :=
  { type := "Miscellaneous Trash", recyclable := false,
    note := "Item not in the specific waste map. Defaulting to Miscellaneous Trash.",
    compostable := some false, special := some false }

/-- Note text of the vague-but-paper fallback branch of `getWasteDetails`. -/
def vaguePaperNote : String :=
  "Model was vague but identified a paper product. Assuming clean and dry paper."

/-- Note text of the vague-but-container fallback branch of `getWasteDetails`. -/
def vagueContainerNote : String :=
  "Model was vague but identified a container type. Assuming standard rigid plastic."

/-- Accumulated keyword score of one category: the `categoryScores` record of
`getWasteDetails` after the voting loop over `predictions.slice(0, 5)`; each
keyword contained in the cleaned label adds `score + 0.1`. -/
def categoryScores (predictions : List HFPrediction) (k : WasteCategoryKey) : ℚ :=
  (predictions.take 5).foldl
    (fun acc p =>
      (KEYWORD_SCORES k).foldl
        (fun acc2 kw =>
          if jsIncludes (jsTrim (jsToLower p.label)) kw then acc2 + (p.score + 1/10) else acc2)
        acc)
    0

/-- Iteration order of the winner-selection loop: the insertion order of the
`categoryScores` object literal in the source. -/
def categoryOrder : List WasteCategoryKey :=
  [.PlasticFilm, .RigidPlastic, .Metal, .Glass, .Cardboard, .Paper, .FoodOrganics]

/-- Position of a category in `categoryOrder`. -/
def catIndex : WasteCategoryKey → ℕ
  | .PlasticFilm => 0
  | .RigidPlastic => 1
  | .Metal => 2
  | .Glass => 3
  | .Cardboard => 4
  | .Paper => 5
  | .FoodOrganics => 6

/-- One iteration of the winner-selection loop of `getWasteDetails`: the
accumulator is `(winningCategory, maxScore)`, updated when
`categoryScores[key] > maxScore && categoryScores[key] > 0.3`. -/
def voteStep (f : WasteCategoryKey → ℚ) (acc : Option WasteCategoryKey × ℚ)
    (k : WasteCategoryKey) : Option WasteCategoryKey × ℚ :=
  if f k > acc.2 ∧ f k > 3/10 then (some k, f k) else acc

/-- The winner-selection loop of `getWasteDetails`, starting from
`winningCategory = null`, `maxScore = 0`. -/
def selectWinner (f : WasteCategoryKey → ℚ) : Option WasteCategoryKey :=
  (categoryOrder.foldl (voteStep f) (none, 0)).1

/-- The safety-override condition of `getWasteDetails` on the lowercased top
label. -/
def isBrokenGlassLabel (lowerTopLabel : String) : Bool :=
  jsIncludes lowerTopLabel "broken glass" || jsIncludes lowerTopLabel "shattered" ||
  jsIncludes lowerTopLabel "broken cup" || jsIncludes lowerTopLabel "cut glass"

/-- The core classifier `getWasteDetails` from the source: empty-input
fallback, keyword-weighted vote, broken-glass safety override, category
mapping, and the no-winner fallback heuristic. -/
def getWasteDetails (predictions : List HFPrediction) : ClassificationResult :=
  match predictions with
  | [] => { rawLabel := "N/A", toWasteDetail := UNKNOWN_FALLBACK }
  | p0 :: rest =>
    let topRawLabel := p0.label
    let lowerTopLabel := jsToLower topRawLabel
    if isBrokenGlassLabel lowerTopLabel then
      { rawLabel := topRawLabel, toWasteDetail := broken_glass_special }
    else
      match selectWinner (categoryScores (p0 :: rest)) with
      | some .RigidPlastic => { rawLabel := topRawLabel, toWasteDetail := rigid_plastic_default }
      | some .PlasticFilm => { rawLabel := topRawLabel, toWasteDetail := plastic_film_trash }
      | some .Metal => { rawLabel := topRawLabel, toWasteDetail := metal_default }
      | some .Cardboard => { rawLabel := topRawLabel, toWasteDetail := cardboard_default }
      | some .Paper => { rawLabel := topRawLabel, toWasteDetail := paper_default }
      | some .Glass => { rawLabel := topRawLabel, toWasteDetail := glass_default }
      | some .FoodOrganics => { rawLabel := topRawLabel, toWasteDetail := organic_compost }
      | none =>
        if jsIncludes lowerTopLabel "bottle" || jsIncludes lowerTopLabel "can" ||
            jsIncludes lowerTopLabel "book" then
          if jsIncludes lowerTopLabel "book" || jsIncludes lowerTopLabel "newspaper" then
            { rawLabel := topRawLabel,
              toWasteDetail := { paper_default with note := vaguePaperNote } }
          else
            { rawLabel := topRawLabel,
              toWasteDetail := { rigid_plastic_default with note := vagueContainerNote } }
        else
          { rawLabel := topRawLabel, toWasteDetail := UNKNOWN_FALLBACK }

/-- What one `fetch` call inside `retryFetch` can observe: a settled HTTP
response (`ok` flag, status code, and the `error` field of the parsed JSON
body, when present), or a rejection of the `fetch` promise itself with an
error message. -/
inductive FetchStep where
  | response (ok : Bool) (status : ℕ) (errorBody : Option String)
  | netError (msg : String)
deriving DecidableEq, Repr

/-- Surfaced outcome of `retryFetch`: `returned i` models returning the
response of attempt `i`; `thrown m` models throwing an error with message `m`. -/
inductive RetryResult where
  | returned (attempt : ℕ)
  | thrown (msg : String)
deriving DecidableEq, Repr

/-- The trace produced by a run of `retryFetch`: the surfaced outcome, the
number of `fetch` calls performed, and the sleep durations in milliseconds,
in order. -/
structure RetryTrace where
  result : RetryResult
  fetchCount : ℕ
  delays : List ℕ
deriving DecidableEq, Repr

/-- The message thrown by `retryFetch` on a 401 status. -/
def msg401 : String :=
  "401 Unauthorized: Please verify your Hugging Face API token is correct."

/-- The message thrown by `retryFetch` when the loop exits without returning. -/
def msgExhausted : String := "Fetch failed after all retries."

/-- Rendering of `JSON.stringify(details)` for the details object modelled by
the optional `error` field. -/
def detailsJson : Option String → String
  | none => "\x7b\x7d"
  | some e => "\x7b\"error\":\"" ++ e ++ "\"\x7d"

/-- The generic HTTP error message built by `retryFetch`. -/
def httpErrorMessage (status : ℕ) (body : Option String) : String :=
  "HTTP error! Status: " ++ toString status ++ ". Details: " ++
    (detailsJson body).take 100 ++ "..."

/-- The model-loading test of `retryFetch`:
`details.error && details.error.includes("is currently loading")`. -/
def isLoadingError : Option String → Bool
  | some e => jsIncludes e "is currently loading"
  | none => false

/-- The retry loop of `retryFetch`, as a function of the stream `outs` of
outcomes attempt `i` would observe. `i` is the current loop index, `fuel` the
remaining iterations (`retries - i`), `delays` the sleeps so far (reversed).
Mirrors the source: an `ok` response returns; a non-`ok` response throws the
401 message on status 401 or, after a body whose `error` says the model is
loading, sleeps 5000 ms and continues; every thrown error is caught in the
same iteration, rethrown only when `i = retries - 1`, and otherwise followed
by a `2^i * 1000` ms sleep and another attempt. -/
def retryFetchAux (outs : ℕ → FetchStep) : (i fuel : ℕ) → (delays : List ℕ) → RetryTrace
  | i, 0, delays => ⟨.thrown msgExhausted, i, delays.reverse⟩
  | i, fuel + 1, delays =>
    match outs i with
    | .response ok status errorBody =>
      if ok then ⟨.returned i, i + 1, delays.reverse⟩
      else if status = 401 then
        if fuel = 0 then ⟨.thrown msg401, i + 1, delays.reverse⟩
        else retryFetchAux outs (i + 1) fuel (2 ^ i * 1000 :: delays)
      else if isLoadingError errorBody then
        retryFetchAux outs (i + 1) fuel (5000 :: delays)
      else
        if fuel = 0 then ⟨.thrown (httpErrorMessage status errorBody), i + 1, delays.reverse⟩
        else retryFetchAux outs (i + 1) fuel (2 ^ i * 1000 :: delays)
    | .netError m =>
      if fuel = 0 then ⟨.thrown m, i + 1, delays.reverse⟩
      else retryFetchAux outs (i + 1) fuel (2 ^ i * 1000 :: delays)

/-- `retryFetch(url, options, retries)` from the source, abstracted over the
stream of fetch outcomes (the source's default is `retries = 3`). -/
def retryFetch (outs : ℕ → FetchStep) (retries : ℕ) : RetryTrace :=
  retryFetchAux outs 0 retries []

/-- The history update performed in `runInference` after a successful
classification: `[newHistoryItem, ...prevHistory].slice(0, 5)`. -/
def storeHistory (item : HistoryItem) (prevHistory : List HistoryItem) : List HistoryItem :=
  (item :: prevHistory).take 5

/-- A sequence of history updates applied to the initial empty history state. -/
def runStores (items : List HistoryItem) : List HistoryItem :=
  items.foldl (fun h it => storeHistory it h) []

/-- The `setHistory([])` performed by the Clear History button. -/
def clearHistory : List HistoryItem := []

/-! Helper lemmas about the winner-selection fold. -/

/-- The running maximum never decreases across one loop iteration. -/
lemma voteStep_snd_le (f : WasteCategoryKey → ℚ) (acc : Option WasteCategoryKey × ℚ)
    (k : WasteCategoryKey) : acc.2 ≤ (voteStep f acc k).2 := by
  unfold voteStep
  split
  · next h => exact le_of_lt h.1
  · exact le_rfl

/-- The running maximum never decreases across the whole loop. -/
lemma foldl_voteStep_snd_mono (f : WasteCategoryKey → ℚ) :
    ∀ (l : List WasteCategoryKey) (acc : Option WasteCategoryKey × ℚ),
      acc.2 ≤ (l.foldl (voteStep f) acc).2 := by
  intro l
  induction l with
  | nil => intro acc; exact le_rfl
  | cons x l ih =>
    intro acc
    exact le_trans (voteStep_snd_le f acc x) (ih (voteStep f acc x))

/-- After the loop, the running maximum dominates the score of every processed
category that cleared the 0.3 threshold. -/
lemma foldl_voteStep_snd_ge (f : WasteCategoryKey → ℚ) :
    ∀ (l : List WasteCategoryKey) (acc : Option WasteCategoryKey × ℚ) (j : WasteCategoryKey),
      j ∈ l → f j > 3/10 → f j ≤ (l.foldl (voteStep f) acc).2 := by
  intro l
  induction l with
  | nil => intro acc j hj; exact absurd hj (List.not_mem_nil j)
  | cons x l ih =>
    intro acc j hj hthr
    rcases List.mem_cons.mp hj with hx | hmem
    · subst hx
      refine le_trans ?_ (foldl_voteStep_snd_mono f l (voteStep f acc j))
      unfold voteStep
      split
      · exact le_rfl
      · next h =>
        rcases not_and_or.mp h with h1 | h1
        · exact le_of_not_lt h1
        · exact absurd hthr h1
    · exact ih (voteStep f acc x) j hmem hthr

/-- Loop invariant: whenever a winner is recorded, the running maximum is its
score, and that score clears the 0.3 threshold. -/
lemma foldl_voteStep_inv (f : WasteCategoryKey → ℚ) :
    ∀ (l : List WasteCategoryKey) (acc : Option WasteCategoryKey × ℚ),
      (∀ w, acc.1 = some w → acc.2 = f w ∧ f w > 3/10) →
      ∀ k, (l.foldl (voteStep f) acc).1 = some k →
        (l.foldl (voteStep f) acc).2 = f k ∧ f k > 3/10 := by
  intro l
  induction l with
  | nil => intro acc hacc k hk; exact hacc k hk
  | cons x l ih =>
    intro acc hacc k hk
    refine ih (voteStep f acc x) ?_ k hk
    intro w hw
    unfold voteStep at hw ⊢
    split at hw
    · next h =>
      simp only [Option.some.injEq] at hw
      subst hw
      rw [if_pos h]
      exact ⟨rfl, h.2⟩
    · next h =>
      simp only [if_neg h]
      exact hacc w hw

/-- A recorded winner either came in with the accumulator or was processed by
the loop. -/
lemma foldl_voteStep_mem (f : WasteCategoryKey → ℚ) :
    ∀ (l : List WasteCategoryKey) (acc : Option WasteCategoryKey × ℚ) (k : WasteCategoryKey),
      (l.foldl (voteStep f) acc).1 = some k → acc.1 = some k ∨ k ∈ l := by
  intro l
  induction l with
  | nil => intro acc k hk; exact Or.inl hk
  | cons x l ih =>
    intro acc k hk
    rcases ih (voteStep f acc x) k hk with h | h
    · unfold voteStep at h
      split at h
      · simp only [Option.some.injEq] at h
        exact Or.inr (by simp [h])
      · exact Or.inl h
    · exact Or.inr (List.mem_cons_of_mem x h)

/-- A category whose score cannot beat the incoming running maximum is never
newly selected by the loop: if it ends up the winner it already was. -/
lemma foldl_voteStep_fired (f : WasteCategoryKey → ℚ) :
    ∀ (l : List WasteCategoryKey) (acc : Option WasteCategoryKey × ℚ) (k : WasteCategoryKey),
      f k ≤ acc.2 → (l.foldl (voteStep f) acc).1 = some k → acc.1 = some k := by
  intro l
  induction l with
  | nil => intro acc k _ hk; exact hk
  | cons x l ih =>
    intro acc k hle hk
    by_cases hcond : f x > acc.2 ∧ f x > 3/10
    · have hstep : voteStep f acc x = (some x, f x) := by
        unfold voteStep; exact if_pos hcond
      have hk' : ((l.foldl (voteStep f) (voteStep f acc x)).1 = some k) := hk
      have hle' : f k ≤ (voteStep f acc x).2 := by
        rw [hstep]; exact le_trans hle (le_of_lt hcond.1)
      have := ih (voteStep f acc x) k hle' hk'
      rw [hstep] at this
      simp only [Option.some.injEq] at this
      subst this
      exact absurd hcond.1 (not_lt_of_le hle)
    · have hstep : voteStep f acc x = acc := by
        unfold voteStep; exact if_neg hcond
      rw [List.foldl_cons, hstep] at hk
      exact ih acc k hle hk

/-- Once a winner is recorded it never reverts to `null`. -/
lemma foldl_voteStep_some_stays (f : WasteCategoryKey → ℚ) :
    ∀ (l : List WasteCategoryKey) (acc : Option WasteCategoryKey × ℚ) (w : WasteCategoryKey),
      acc.1 = some w → (l.foldl (voteStep f) acc).1 ≠ none := by
  intro l
  induction l with
  | nil => intro acc w hw; simp [hw]
  | cons x l ih =>
    intro acc w hw
    by_cases hcond : f x > acc.2 ∧ f x > 3/10
    · have hstep : voteStep f acc x = (some x, f x) := by
        unfold voteStep; exact if_pos hcond
      rw [List.foldl_cons, hstep]
      exact ih (some x, f x) x rfl
    · have hstep : voteStep f acc x = acc := by
        unfold voteStep; exact if_neg hcond
      rw [List.foldl_cons, hstep]
      exact ih acc w hw

/-- If the loop ends with no winner, no processed category cleared the 0.3
threshold. -/
lemma foldl_voteStep_none (f : WasteCategoryKey → ℚ) :
    ∀ (l : List WasteCategoryKey),
      (l.foldl (voteStep f) (none, 0)).1 = none → ∀ j ∈ l, f j ≤ 3/10 := by
  intro l
  induction l with
  | nil => intro _ j hj; exact absurd hj (List.not_mem_nil j)
  | cons x l ih =>
    intro hnone j hj
    by_cases hcond : f x > (0:ℚ) ∧ f x > 3/10
    · exfalso
      have hstep : voteStep f (none, 0) x = (some x, f x) := by
        unfold voteStep; exact if_pos hcond
      rw [List.foldl_cons, hstep] at hnone
      exact foldl_voteStep_some_stays f l (some x, f x) x rfl hnone
    · have hstep : voteStep f (none, 0) x = (none, 0) := by
        unfold voteStep; exact if_neg hcond
      rw [List.foldl_cons, hstep] at hnone
      rcases List.mem_cons.mp hj with hx | hmem
      · subst hx
        rcases not_and_or.mp hcond with h1 | h1
        · exact le_trans (le_of_not_lt h1) (by norm_num)
        · exact le_of_not_lt h1
      · exact ih hnone j hmem

/-- Every category occurs in the iteration order of the winner loop. -/
lemma mem_categoryOrder (k : WasteCategoryKey) : k ∈ categoryOrder := by
  cases k <;> decide

/-- Decomposition of the iteration order around an earlier category `j`, with a
later category `k` strictly behind it. -/
lemma categoryOrder_decomp (j k : WasteCategoryKey) (h : catIndex j < catIndex k) :
    categoryOrder = categoryOrder.take (catIndex j) ++ j :: categoryOrder.drop (catIndex j + 1) ∧
      k ∈ categoryOrder.drop (catIndex j + 1) ∧ k ∉ categoryOrder.take (catIndex j) := by
  revert h
  revert j k
  decide

/-- The winner's accumulated score always clears the strict 0.3 threshold. -/
lemma selectWinner_gt_threshold (f : WasteCategoryKey → ℚ) (k : WasteCategoryKey)
    (h : selectWinner f = some k) : f k > 3/10 :=
  (foldl_voteStep_inv f categoryOrder (none, 0) (by intro w hw; cases hw) k h).2

/-- The winner's accumulated score is a maximum over all categories. -/
lemma selectWinner_ge_all (f : WasteCategoryKey → ℚ) (k : WasteCategoryKey)
    (h : selectWinner f = some k) : ∀ j, f j ≤ f k := by
  intro j
  have hinv := foldl_voteStep_inv f categoryOrder (none, 0) (by intro w hw; cases hw) k h
  by_cases hthr : f j > 3/10
  · have := foldl_voteStep_snd_ge f categoryOrder (none, 0) j (mem_categoryOrder j) hthr
    rw [hinv.1] at this
    exact this
  · exact le_trans (le_of_not_lt hthr) (le_of_lt hinv.2)

/-- Strict-maximum tie-breaking: the winner strictly beats every category that
the loop visits before it. -/
lemma selectWinner_earlier_lt (f : WasteCategoryKey → ℚ) (j k : WasteCategoryKey)
    (hjk : catIndex j < catIndex k) (h : selectWinner f = some k) : f j < f k := by
  by_contra hcon
  have hkj : f k ≤ f j := le_of_not_lt hcon
  have hkthr : f k > 3/10 := selectWinner_gt_threshold f k h
  have hjthr : f j > 3/10 := lt_of_lt_of_le hkthr hkj
  obtain ⟨hdec, hkmem, hknmem⟩ := categoryOrder_decomp j k hjk
  unfold selectWinner at h
  rw [hdec, List.foldl_append, List.foldl_cons] at h
  set acc0 := (categoryOrder.take (catIndex j)).foldl (voteStep f) (none, 0) with hacc0
  have hle1 : f j ≤ (voteStep f acc0 j).2 := by
    unfold voteStep
    split
    · exact le_rfl
    · next hc =>
      rcases not_and_or.mp hc with h1 | h1
      · exact le_of_not_lt h1
      · exact absurd hjthr h1
  have hfired := foldl_voteStep_fired f (categoryOrder.drop (catIndex j + 1))
    (voteStep f acc0 j) k (le_trans hkj hle1) h
  by_cases hcond : f j > acc0.2 ∧ f j > 3/10
  · rw [show voteStep f acc0 j = (some j, f j) from if_pos hcond] at hfired
    simp only [Option.some.injEq] at hfired
    subst hfired
    exact absurd hjk (lt_irrefl _)
  · rw [show voteStep f acc0 j = acc0 from if_neg hcond] at hfired
    rcases foldl_voteStep_mem f (categoryOrder.take (catIndex j)) (none, 0) k hfired with h0 | h0
    · cases h0
    · exact hknmem h0

/-- A winner exists whenever some category clears the 0.3 threshold. -/
lemma selectWinner_exists (f : WasteCategoryKey → ℚ) (h : ∃ k, f k > 3/10) :
    ∃ k, selectWinner f = some k := by
  obtain ⟨k, hk⟩ := h
  cases hwin : selectWinner f with
  | some w => exact ⟨w, rfl⟩
  | none =>
    exfalso
    have := foldl_voteStep_none f categoryOrder hwin k (mem_categoryOrder k)
    exact absurd hk (not_lt_of_le this)

/-! Helper lemmas about the history list. -/

/-- Truncating the appended tail first does not change a truncation. -/
lemma take_append_take {α : Type} (A B : List α) (n : ℕ) :
    (A ++ B.take n).take n = (A ++ B).take n := by
  rw [List.take_append_eq_append_take, List.take_append_eq_append_take, List.take_take]
  congr 2
  exact Nat.min_eq_left (Nat.sub_le n A.length)

/-- Folding prepend-and-truncate over a stream of items, starting from any
already-truncated state, keeps the 5 most recent entries. -/
lemma foldl_storeHistory (items : List HistoryItem) :
    ∀ acc : List HistoryItem,
      items.foldl (fun h it => storeHistory it h) (acc.take 5) =
        (items.reverse ++ acc).take 5 := by
  induction items with
  | nil => intro acc; simp
  | cons x items ih =>
    intro acc
    have h1 : storeHistory x (acc.take 5) = (x :: acc).take 5 := by
      simp [storeHistory, List.take_take]
    rw [List.foldl_cons, h1, ih (x :: acc)]
    simp

/-- When every attempt observes a 401 response, the loop keeps retrying and
the authorization message surfaces only after the final attempt. -/
lemma retryFetchAux_all401 (outs : ℕ → FetchStep)
    (hall : ∀ i, outs i = FetchStep.response false 401 none) :
    ∀ (fuel i : ℕ) (delays : List ℕ), 1 ≤ fuel →
      (retryFetchAux outs i fuel delays).result = RetryResult.thrown msg401 ∧
      (retryFetchAux outs i fuel delays).fetchCount = i + fuel := by
  intro fuel
  induction fuel with
  | zero => intro i delays h; exact absurd h (by omega)
  | succ n ih =>
    intro i delays _
    rw [retryFetchAux, hall i]
    cases n with
    | zero => exact ⟨rfl, rfl⟩
    | succ m =>
      simp only [Bool.false_eq_true, if_false, if_pos rfl, Nat.succ_ne_zero, if_neg,
        eq_self_iff_true, if_true]
      have := ih (i + 1) (2 ^ i * 1000 :: delays) (by omega)
      exact ⟨this.1, by rw [this.2]; omega⟩

/-! The claims. -/

/-- C1: for every non-empty prediction list whose first element's label,
lowercased, contains "broken glass", "shattered", "broken cup", or
"cut glass" as a substring, `getWasteDetails` returns the
`broken_glass_special` profile with `rawLabel` equal to that first label,
regardless of the keyword vote and of the other predictions. -/
theorem claim1_broken_glass_override (p0 : HFPrediction) (rest : List HFPrediction)
    (h : isBrokenGlassLabel (jsToLower p0.label) = true) :
    getWasteDetails (p0 :: rest) =
      { rawLabel := p0.label, toWasteDetail := broken_glass_special } := by
  simp [getWasteDetails, h]

/-- Witness for C1: a concrete run through the safety override. -/
theorem claim1_witness :
    isBrokenGlassLabel (jsToLower "Shattered Cup") = true ∧
    getWasteDetails [⟨"Shattered Cup", 9/10⟩, ⟨"plastic bag", 1⟩] =
      { rawLabel := "Shattered Cup", toWasteDetail := broken_glass_special } :=
  ⟨by decide,
    claim1_broken_glass_override ⟨"Shattered Cup", 9/10⟩ [⟨"plastic bag", 1⟩] (by decide)⟩

/-- C2: on the empty prediction list, `getWasteDetails` immediately returns the
`UNKNOWN_FALLBACK` profile with `rawLabel = "N/A"` (the definition returns in
its first branch, before any scoring, safety override, or fallback heuristic). -/
theorem claim2_empty_input :
    getWasteDetails [] = { rawLabel := "N/A", toWasteDetail := UNKNOWN_FALLBACK } := rfl

/-- The eleven waste details a verdict can carry: the nine static `WASTE_MAP`
profiles plus the two note-overridden fallback variants. -/
def staticVerdictDetails : List WasteDetail :=
  [rigid_plastic_default, plastic_film_trash, metal_default, cardboard_default, paper_default,
   glass_default, organic_compost, broken_glass_special, UNKNOWN_FALLBACK,
   { paper_default with note := vaguePaperNote },
   { rigid_plastic_default with note := vagueContainerNote }]

/-- C3: `getWasteDetails` is total — it is a Lean function, so it terminates
and returns a `ClassificationResult` on every input; moreover every branch
returns one of the eleven statically known waste details. -/
theorem claim3_total (preds : List HFPrediction) :
    (getWasteDetails preds).toWasteDetail ∈ staticVerdictDetails := by
  cases preds with
  | nil => simp [getWasteDetails, staticVerdictDetails]
  | cons p0 rest =>
    simp only [getWasteDetails]
    split <;> (try split) <;> (try split) <;> (try split) <;> simp [staticVerdictDetails]

/-- Counterexample to C4 as stated: on `[{label: "plastic bottle", score: 0.2}]`
the RigidPlastic accumulator is 0.6, not 0.3 (the label contains both the
keyword "bottle" and the keyword "plastic bottle", each adding 0.2 + 0.1), so
RigidPlastic wins the strict vote and the returned note is the unmodified
`rigid_plastic_default` note, not the fallback's vague-container note. -/
theorem claim4_counterexample :
    categoryScores [⟨"plastic bottle", 1/5⟩] WasteCategoryKey.RigidPlastic = 3/5 ∧
    ((3:ℚ)/5 ≠ 3/10) ∧
    selectWinner (categoryScores [⟨"plastic bottle", 1/5⟩]) = some WasteCategoryKey.RigidPlastic ∧
    (getWasteDetails [⟨"plastic bottle", 1/5⟩]).note = rigid_plastic_default.note ∧
    rigid_plastic_default.note ≠ vagueContainerNote :=
  ⟨by decide, by decide, by decide, by decide, by decide⟩

/-- C4 (amended): on `[{label: "plastic bottle", score: 0.2}]` the RigidPlastic
accumulator is 0.6, RigidPlastic wins the strict >0.3 vote, and
`getWasteDetails` returns `rigid_plastic_default` via the vote path, with its
unmodified profile note. -/
theorem claim4_amended :
    categoryScores [⟨"plastic bottle", 1/5⟩] WasteCategoryKey.RigidPlastic = 3/5 ∧
    selectWinner (categoryScores [⟨"plastic bottle", 1/5⟩]) = some WasteCategoryKey.RigidPlastic ∧
    getWasteDetails [⟨"plastic bottle", 1/5⟩] =
      { rawLabel := "plastic bottle", toWasteDetail := rigid_plastic_default } :=
  ⟨by decide, by decide, by decide⟩

/-- Counterexample to C5 as stated: on `[{label: "newspaper", score: 0.01}]` no
category wins the vote and the top label contains "newspaper", yet the result
is `UNKNOWN_FALLBACK`, not `paper_default` — the paper branch is nested inside
the `bottle`/`can`/`book` test, which "newspaper" fails. -/
theorem claim5_counterexample :
    jsIncludes (jsToLower "newspaper") "newspaper" = true ∧
    selectWinner (categoryScores [⟨"newspaper", 1/100⟩]) = none ∧
    getWasteDetails [⟨"newspaper", 1/100⟩] =
      { rawLabel := "newspaper", toWasteDetail := UNKNOWN_FALLBACK } ∧
    UNKNOWN_FALLBACK.type ≠ paper_default.type :=
  ⟨by decide, by decide, by decide, by decide⟩

/-- C5 (amended): for every non-empty input on which the safety override does
not fire and no category wins the vote, if the lowercased top label contains
"bottle", "can", or "book" (the guard of the fallback heuristic) and contains
"book" or "newspaper", then `getWasteDetails` returns `paper_default` with its
note overridden to the vague-but-paper message. -/
theorem claim5_amended (p0 : HFPrediction) (rest : List HFPrediction)
    (hsafe : isBrokenGlassLabel (jsToLower p0.label) = false)
    (hwin : selectWinner (categoryScores (p0 :: rest)) = none)
    (houter : (jsIncludes (jsToLower p0.label) "bottle" || jsIncludes (jsToLower p0.label) "can" ||
      jsIncludes (jsToLower p0.label) "book") = true)
    (hinner : (jsIncludes (jsToLower p0.label) "book" ||
      jsIncludes (jsToLower p0.label) "newspaper") = true) :
    getWasteDetails (p0 :: rest) =
      { rawLabel := p0.label, toWasteDetail := { paper_default with note := vaguePaperNote } } := by
  simp [getWasteDetails, hsafe, hwin, houter, hinner]

/-- Witness for C5 (amended): a concrete run through the vague-paper branch. -/
theorem claim5_witness :
    isBrokenGlassLabel (jsToLower "book") = false ∧
    selectWinner (categoryScores [⟨"book", 1/100⟩]) = none ∧
    getWasteDetails [⟨"book", 1/100⟩] =
      { rawLabel := "book", toWasteDetail := { paper_default with note := vaguePaperNote } } :=
  ⟨by decide, by decide,
    claim5_amended ⟨"book", 1/100⟩ [] (by decide) (by decide) (by decide) (by decide)⟩

/-- The stream of fetch outcomes refuting C6: attempt 0 observes an HTTP 401
response, attempt 1 a successful response. -/
def outs401ThenOk : ℕ → FetchStep := fun i =>
  if i = 0 then FetchStep.response false 401 none else FetchStep.response true 200 none

/-- Counterexample to C6 as stated: with `retries = 3` and a 401 observed on
attempt 0, `retryFetch` performs a second fetch after a 1000 ms backoff sleep
and returns attempt 1's response — the 401 is neither surfaced on the attempt
that observed it nor free of backoff delay. -/
theorem claim6_counterexample :
    (retryFetch outs401ThenOk 3).fetchCount = 2 ∧
    (retryFetch outs401ThenOk 3).delays = [1000] ∧
    (retryFetch outs401ThenOk 3).result = RetryResult.returned 1 :=
  ⟨by decide, by decide, by decide⟩

/-- C6 (amended): the 401 error is thrown inside the `try`, so the generic
`catch` treats it like any other failure: when every attempt observes a 401,
the authorization message surfaces only after all `retries` fetches; and a 401
observed with attempts remaining is followed, after the exponential-backoff
sleep, by another fetch whose success is returned. -/
theorem claim6_amended :
    (∀ (outs : ℕ → FetchStep) (retries : ℕ), 1 ≤ retries →
       (∀ i, outs i = FetchStep.response false 401 none) →
       (retryFetch outs retries).result = RetryResult.thrown msg401 ∧
       (retryFetch outs retries).fetchCount = retries) ∧
    (∀ (outs : ℕ → FetchStep) (retries status : ℕ) (body : Option String), 2 ≤ retries →
       outs 0 = FetchStep.response false 401 none →
       outs 1 = FetchStep.response true status body →
       retryFetch outs retries = ⟨RetryResult.returned 1, 2, [1000]⟩) := by
  constructor
  · intro outs retries h1 hall
    have h := retryFetchAux_all401 outs hall retries 0 [] h1
    exact ⟨h.1, by rw [retryFetch, h.2]; omega⟩
  · intro outs retries status body h2 h0 h1
    obtain ⟨m, rfl⟩ : ∃ m, retries = m + 1 + 1 := ⟨retries - 2, by omega⟩
    rw [retryFetch, retryFetchAux, h0]
    simp only [Bool.false_eq_true, if_false, eq_self_iff_true, if_true, Nat.succ_ne_zero,
      if_neg, isLoadingError]
    rw [retryFetchAux, h1]
    simp

/-- Witness for C6 (amended): the amended behaviour at the concrete stream. -/
theorem claim6_witness :
    retryFetch outs401ThenOk 3 = ⟨RetryResult.returned 1, 2, [1000]⟩ :=
  claim6_amended.2 outs401ThenOk 3 200 none (by omega) (by decide) (by decide)

/-- C7: a category is selected as winner only if its accumulated score is
strictly greater than 0.3 (so an accumulator of exactly 0.3 never wins); the
winner's score is a maximum, and it strictly beats every category visited
earlier in the fixed enumeration order, so on ties at the maximum the
first-enumerated category wins; and a winner exists whenever any category
clears the threshold. -/
theorem claim7_strict_threshold_tiebreak :
    (∀ (f : WasteCategoryKey → ℚ) (k : WasteCategoryKey), selectWinner f = some k →
       f k > 3/10 ∧ (∀ j, f j ≤ f k) ∧ ∀ j, catIndex j < catIndex k → f j < f k) ∧
    (∀ f : WasteCategoryKey → ℚ, (∃ k, f k > 3/10) → ∃ k, selectWinner f = some k) := by
  constructor
  · intro f k h
    exact ⟨selectWinner_gt_threshold f k h, selectWinner_ge_all f k h,
      fun j hj => selectWinner_earlier_lt f j k hj h⟩
  · exact selectWinner_exists

/-- Witness for C7: with all seven accumulators tied at 1, the first category
in enumeration order wins, and the theorem's conclusions hold there. -/
theorem claim7_witness :
    (1:ℚ) > 3/10 ∧ (∀ _j : WasteCategoryKey, (1:ℚ) ≤ 1) ∧
      (∀ j : WasteCategoryKey, catIndex j < catIndex WasteCategoryKey.PlasticFilm → (1:ℚ) < 1) :=
  claim7_strict_threshold_tiebreak.1 (fun _ => 1) WasteCategoryKey.PlasticFilm (by decide)

/-- C8: `getWasteDetails` depends only on the first 5 predictions — the
classifier takes the top label from the head and scores only
`predictions.slice(0, 5)`, so truncating the input to 5 entries changes
nothing. -/
theorem claim8_first_five (l : List HFPrediction) :
    getWasteDetails l = getWasteDetails (l.take 5) := by
  cases l with
  | nil => rfl
  | cons p0 rest =>
    have h : categoryScores (p0 :: rest) = categoryScores (p0 :: rest.take 4) := by
      funext k
      simp [categoryScores, List.take_take]
    show getWasteDetails (p0 :: rest) = getWasteDetails (p0 :: rest.take 4)
    simp only [getWasteDetails, h]

/-- C9: starting from the empty history, every store prepends the new item and
truncates to 5, so after any sequence of stores the history is exactly the 5
most recent items, most recent first (`items.reverse.take 5` — a sixth store
evicts the oldest entry), its length never exceeds 5, and clearing resets it
to empty. -/
theorem claim9_history_invariant :
    (∀ items : List HistoryItem, runStores items = items.reverse.take 5) ∧
    (∀ items : List HistoryItem, (runStores items).length ≤ 5) ∧
    clearHistory = ([] : List HistoryItem) := by
  have key : ∀ items : List HistoryItem, runStores items = items.reverse.take 5 := by
    intro items
    have h := foldl_storeHistory items []
    simpa [runStores] using h
  refine ⟨key, fun items => ?_, rfl⟩
  rw [key]
  simp only [List.length_take, List.length_reverse]
  omega

/-- C10: when `getWasteDetails` returns through one of the two note-overriding
fallback branches, every field of the verdict except `note` and `rawLabel`
equals the corresponding field of `paper_default` (paper branch), respectively
`rigid_plastic_default` (container branch); in particular `type` is unchanged
and `recyclable` stays `true` — only the note text is replaced. -/
theorem claim10_fallback_frame (p0 : HFPrediction) (rest : List HFPrediction)
    (hsafe : isBrokenGlassLabel (jsToLower p0.label) = false)
    (hwin : selectWinner (categoryScores (p0 :: rest)) = none)
    (houter : (jsIncludes (jsToLower p0.label) "bottle" || jsIncludes (jsToLower p0.label) "can" ||
      jsIncludes (jsToLower p0.label) "book") = true) :
    ((jsIncludes (jsToLower p0.label) "book" ||
        jsIncludes (jsToLower p0.label) "newspaper") = true →
       (getWasteDetails (p0 :: rest)).type = paper_default.type ∧
       (getWasteDetails (p0 :: rest)).recyclable = paper_default.recyclable ∧
       (getWasteDetails (p0 :: rest)).recyclable = true ∧
       (getWasteDetails (p0 :: rest)).special = paper_default.special ∧
       (getWasteDetails (p0 :: rest)).compostable = paper_default.compostable ∧
       (getWasteDetails (p0 :: rest)).rawLabel = p0.label ∧
       (getWasteDetails (p0 :: rest)).note = vaguePaperNote) ∧
    ((jsIncludes (jsToLower p0.label) "book" ||
        jsIncludes (jsToLower p0.label) "newspaper") = false →
       (getWasteDetails (p0 :: rest)).type = rigid_plastic_default.type ∧
       (getWasteDetails (p0 :: rest)).recyclable = rigid_plastic_default.recyclable ∧
       (getWasteDetails (p0 :: rest)).recyclable = true ∧
       (getWasteDetails (p0 :: rest)).special = rigid_plastic_default.special ∧
       (getWasteDetails (p0 :: rest)).compostable = rigid_plastic_default.compostable ∧
       (getWasteDetails (p0 :: rest)).rawLabel = p0.label ∧
       (getWasteDetails (p0 :: rest)).note = vagueContainerNote) := by
  constructor <;> intro h <;>
    simp [getWasteDetails, hsafe, hwin, houter, h, paper_default, rigid_plastic_default]

/-- Witness for C10: a concrete run through the vague-container branch. -/
theorem claim10_witness :
    (getWasteDetails [⟨"water bottle", 1/100⟩]).type = rigid_plastic_default.type ∧
    (getWasteDetails [⟨"water bottle", 1/100⟩]).recyclable = true ∧
    (getWasteDetails [⟨"water bottle", 1/100⟩]).note = vagueContainerNote := by
  have h := claim10_fallback_frame ⟨"water bottle", 1/100⟩ [] (by decide) (by decide) (by decide)
  have h2 := h.2 (by decide)
  exact ⟨h2.1, h2.2.2.1, h2.2.2.2.2.2.2⟩
